import Mathlib

/-!
Verification development for the agent-observer status-aggregation server
(`src/server/src/app.ts`).  The server state is embedded shallowly:

* the JavaScript `Map`s `store` and `pendingWaiting` become association
  lists with `Map` semantics (`set` replaces in place or appends, `delete`
  removes the binding; keys of a JavaScript `Map` are unique, so deletion
  is modelled as removing every binding with the key);
* `setTimeout`/`clearTimeout` for the waiting_for_user debounce become a
  deadline (`now + waitingDebounceMs`) stored in `pendingWaiting`; the
  timer callback is the explicit transition `timerFire`, which is only
  ever enabled while the agent still has an entry in `pendingWaiting`;
* `broadcast` appends the message to a global announcement log and to the
  outbox of every connected observer channel;
* `Date.now()` and `process.kill(pid, 0)` become explicit parameters
  (`now : Nat`, `alive : Int → Bool`; the `try/catch` around the probe
  means any probe error is already folded into `alive` returning `false`).

Request bodies are JSON values, modelled by `JVal` so that JavaScript
truthiness and `typeof` checks translate faithfully.
-/

/-- A JSON-ish JavaScript value as it appears in a parsed request body
field; `undefined` stands for an absent field. -/
inductive JVal where
  | undefined
  | null
  | str (s : String)
  | num (n : Int)
  | boolean (b : Bool)
deriving DecidableEq, Repr

namespace JVal

/-- JavaScript truthiness of a value (`!v` is `!truthy v`). -/
def truthy : JVal → Bool
  | .undefined => false
  | .null => false
  | .str s => s != ""
  | .num n => n != 0
  | .boolean b => b

end JVal

/-- The four values of the `status` field
(`"running" | "waiting_for_user" | "idle" | "error"`). -/
inductive Status where
  | running
  | waiting_for_user
  | idle
  | error
deriving DecidableEq, Repr

/-- `VALID_STATUSES.has(v)` combined with the leading `!status` falsiness
check: the value is accepted exactly when it is one of the four status
strings (all of which are truthy). -/
def parseStatus : JVal → Option Status
  | .str "running" => some .running
  | .str "waiting_for_user" => some .waiting_for_user
  | .str "idle" => some .idle
  | .str "error" => some .error
  | _ => none

/-- `!v || typeof v !== "string"` rejection: accepted exactly when the
value is a non-empty string, which is then extracted. -/
def validStr : JVal → Option String
  | .str s => if s = "" then none else some s
  | _ => none

/-- The `AgentStatus` record stored in the registry. -/
structure AgentStatus where
  agentId : String
  status : Status
  projectName : String
  client : Option String := none
  cwd : Option String := none
  pid : Option Int := none
  label : Option String := none
  timestamp : Nat
deriving DecidableEq, Repr

/-- JavaScript truthiness of an optional number field (`entry.pid`):
absent or `0` is falsy. -/
def truthyNum : Option Int → Bool
  | none => false
  | some n => n != 0

/-- JavaScript truthiness of an optional string field (`agent.cwd`):
absent or empty is falsy. -/
def truthyStr : Option String → Bool
  | none => false
  | some s => s != ""

/-- The `WsMessage` union sent to observers. -/
inductive WsMessage where
  | snapshot (data : List AgentStatus)
  | status_update (data : AgentStatus)
  | agent_removed (agentId : String)
  | focus_request (agentId : String) (pid : Option Int) (cwd : Option String)
deriving DecidableEq, Repr

/-- `true` exactly on `status_update` messages. -/
def isStatusUpdate : WsMessage → Bool
  | .status_update _ => true
  | _ => false

/-- `true` exactly on `snapshot` messages. -/
def isSnapshot : WsMessage → Bool
  | .snapshot _ => true
  | _ => false

-- --- JavaScript `Map` semantics on association lists ---

/-- `m.get(k)`. -/
def mapLookup {α : Type} (k : String) (m : List (String × α)) : Option α :=
  (m.find? (fun kv => kv.1 == k)).map (·.2)

/-- `m.set(k, v)`: replace in place when the key is present, otherwise
append at the end (JavaScript `Map`s preserve insertion order). -/
def mapSet {α : Type} (k : String) (v : α) : List (String × α) →
    List (String × α)
  | [] => [(k, v)]
  | kv :: m => if kv.1 == k then (k, v) :: m else kv :: mapSet k v m

/-- `m.delete(k)`: keys of a JavaScript `Map` are unique, so deleting the
key removes every binding carrying it. -/
def mapDelete {α : Type} (k : String) (m : List (String × α)) :
    List (String × α) :=
  m.filter (fun kv => kv.1 != k)

-- --- Server state ---

/-- The mutable state owned by `createApp`, plus the observable output:
`log` is the global sequence of broadcast messages and `clients` maps each
connected observer channel to the sequence of messages sent to it. -/
structure ServerState where
  store : List (String × AgentStatus)
  pendingWaiting : List (String × Nat)
  log : List WsMessage
  clients : List (Nat × List WsMessage)
deriving DecidableEq, Repr

/-- The state right after `createApp` returns: empty registry, no pending
debounce timers, no connected observers. -/
def initState : ServerState :=
  { store := [], pendingWaiting := [], log := [], clients := [] }

/-- `broadcast(message)`: send to every connected client (all modelled
channels are open) and record the message in the global log. -/
def broadcast (m : WsMessage) (s : ServerState) : ServerState :=
  { s with
    log := s.log ++ [m]
    clients := s.clients.map (fun c => (c.1, c.2 ++ [m])) }

-- --- HTTP layer ---

/-- An HTTP response as far as the spec observes it. -/
inductive ApiResponse where
  | ok
  | badRequest (err : String)
  | notFound
deriving DecidableEq, Repr

/-- A parsed `POST /api/status` body; absent fields are `undefined`. -/
structure ReqBody where
  agentId : JVal := .undefined
  status : JVal := .undefined
  projectName : JVal := .undefined
  client : JVal := .undefined
  cwd : JVal := .undefined
  pid : JVal := .undefined
  label : JVal := .undefined
deriving DecidableEq, Repr

/-- `...(client && typeof client === "string" ? { client } : {})`. -/
def optStrField : JVal → Option String
  | .str s => if s = "" then none else some s
  | _ => none

/-- `...(pid && typeof pid === "number" ? { pid } : {})`. -/
def optNumField : JVal → Option Int
  | .num n => if n = 0 then none else some n
  | _ => none

/-- Label resolution of the POST handler: an explicit value wins (a
non-empty string sets it, anything else clears it), an absent field
preserves the existing record's label. -/
def resolveLabel (v : JVal) (existing : Option AgentStatus) : Option String :=
  if v ≠ .undefined then
    match v with
    | .str l => if l = "" then none else some l
    | _ => none
  else
    existing.bind (·.label)

/-- The candidate `entry` built by the POST handler from the validated
fields, the raw body and the existing record for the same agent. -/
def buildEntry (now : Nat) (aId : String) (st : Status) (pn : String)
    (body : ReqBody) (existing : Option AgentStatus) : AgentStatus :=
  { agentId := aId
    status := st
    projectName := pn
    client := optStrField body.client
    cwd := optStrField body.cwd
    pid := optNumField body.pid
    label := resolveLabel body.label existing
    timestamp := now }

/-- One iteration of an eviction loop over the registry: when `cond`
holds for a visited binding, delete it, cancel its pending debounce
timer and announce `agent_removed`.  Both the PID-collision scan of the
POST handler and the reaper sweep of `runCleanup` have this shape. -/
def sweepStep (cond : String × AgentStatus → Bool)
    (st : ServerState) (kv : String × AgentStatus) : ServerState :=
  if cond kv then
    broadcast (.agent_removed kv.1)
      { st with
        store := mapDelete kv.1 st.store
        pendingWaiting := mapDelete kv.1 st.pendingWaiting }
  else st

/-- Iterate an eviction loop over the registry as it stood when the loop
started (deleting the visited binding never skips later ones). -/
def sweep (cond : String × AgentStatus → Bool) (s : ServerState) :
    ServerState :=
  s.store.foldl (sweepStep cond) s

/-- The condition of the PID-collision scan:
`otherId !== agentId && other.pid === entry.pid`. -/
def evictCond (aId : String) (p : Option Int)
    (kv : String × AgentStatus) : Bool :=
  kv.1 != aId && kv.2.pid == p

/-- The `POST /api/status` handler.  `d` is `waitingDebounceMs` and `now`
is `Date.now()` at the time of the request. -/
def postStatus (d now : Nat) (body : ReqBody) (s : ServerState) :
    ApiResponse × ServerState :=
  match validStr body.agentId with
  | none => (.badRequest "Missing or invalid field: agentId", s)
  | some aId =>
    match parseStatus body.status with
    | none => (.badRequest "Missing or invalid field: status", s)
    | some st =>
      match validStr body.projectName with
      | none => (.badRequest "Missing or invalid field: projectName", s)
      | some pn =>
        let entry := buildEntry now aId st pn body (mapLookup aId s.store)
        -- Evict other sessions sharing the same PID.
        let s1 := if truthyNum entry.pid then
            sweep (evictCond aId entry.pid) s
          else s
        let s2 := { s1 with store := mapSet aId entry s1.store }
        if st = .waiting_for_user then
          -- clear any previous timer and start a fresh one: the map entry
          -- is replaced and the deadline becomes `now + d`
          (.ok, { s2 with
                  pendingWaiting := mapSet aId (now + d) s2.pendingWaiting })
        else
          let s3 := { s2 with
                      pendingWaiting := mapDelete aId s2.pendingWaiting }
          (.ok, broadcast (.status_update entry) s3)

/-- The debounce timer callback for `agentId`: drop the pending entry,
re-read the current record and announce it only when its status is still
`waiting_for_user`. -/
def timerFire (aId : String) (s : ServerState) : ServerState :=
  let s1 := { s with pendingWaiting := mapDelete aId s.pendingWaiting }
  match mapLookup aId s1.store with
  | some current =>
    if current.status = .waiting_for_user then
      broadcast (.status_update current) s1
    else s1
  | none => s1

/-- The `GET /api/status` handler: `Array.from(store.values())`. -/
def getStatus (s : ServerState) : List AgentStatus :=
  s.store.map (·.2)

/-- The `DELETE /api/status/:agentId` handler. -/
def deleteAgent (aId : String) (s : ServerState) : ApiResponse × ServerState :=
  if (mapLookup aId s.store).isSome then
    let s1 := { s with
                store := mapDelete aId s.store
                pendingWaiting := mapDelete aId s.pendingWaiting }
    (.ok, broadcast (.agent_removed aId) s1)
  else (.notFound, s)

/-- The `PATCH /api/status/:agentId/label` handler; `lv` is the `label`
field of the body.  The record object is mutated in place, so its position
in the registry and every other field, `timestamp` included, are kept. -/
def patchLabel (aId : String) (lv : JVal) (s : ServerState) :
    ApiResponse × ServerState :=
  match mapLookup aId s.store with
  | none => (.notFound, s)
  | some agent =>
    match lv with
    | .str l =>
      let agent' := { agent with label := if l = "" then none else some l }
      let s1 := { s with store := mapSet aId agent' s.store }
      (.ok, broadcast (.status_update agent') s1)
    | _ => (.badRequest "Missing or invalid field: label", s)

/-- The record as mutated in place by the label-patch handler: an empty
string deletes the label, anything else overwrites it. -/
def patchedAgent (ag : AgentStatus) (l : String) : AgentStatus :=
  { ag with label := if l = "" then none else some l }

/-- The staleness test of `runCleanup`: with a truthy `pid` the record is
stale exactly when the liveness probe fails; otherwise it falls back to
age against `STALE_TIMEOUT_MS` (24 h). -/
def isStale (alive : Int → Bool) (now : Nat) (e : AgentStatus) : Bool :=
  if truthyNum e.pid then
    match e.pid with
    | some p => !alive p
    | none => false
  else
    decide (now - e.timestamp > 24 * 60 * 60 * 1000)

/-- The reaper sweep `runCleanup`, with the clock and the outcome of the
`process.kill(pid, 0)` probe (errors already folded to `false`) passed
explicitly. -/
def runCleanup (alive : Int → Bool) (now : Nat) (s : ServerState) :
    ServerState :=
  sweep (fun kv => isStale alive now kv.2) s

/-- A new observer connection: register the channel and immediately send
it a snapshot of the registry.  Channel identifiers name connections
uniquely, so a connect on an already-registered channel does nothing. -/
def wsConnect (ch : Nat) (s : ServerState) : ServerState :=
  if s.clients.any (fun c => c.1 == ch) then s
  else
    { s with
      clients :=
        s.clients ++ [(ch, [WsMessage.snapshot (s.store.map (·.2))])] }

/-- A parsed inbound observer message: `malformed` when `JSON.parse`
throws, otherwise the `type` and `agentId` fields of the parsed value
(`undefined` when absent or when the value is not an object). -/
inductive Inbound where
  | malformed
  | parsed (msgType : JVal) (agentId : JVal)
deriving DecidableEq, Repr

/-- The `ws.on("message")` handler: a `focus_request` with a string
`agentId` is rebroadcast enriched with the registry record's truthy `pid`
and `cwd`; everything else is silently ignored. -/
def wsMessage (msg : Inbound) (s : ServerState) : ServerState :=
  match msg with
  | .malformed => s
  | .parsed t a =>
    if t = .str "focus_request" then
      match a with
      | .str id =>
        let agent := mapLookup id s.store
        broadcast
          (.focus_request id
            (match agent with
             | some ag => if truthyNum ag.pid then ag.pid else none
             | none => none)
            (match agent with
             | some ag => if truthyStr ag.cwd then ag.cwd else none
             | none => none)) s
      | _ => s
    else s

-- --- Trace semantics ---

/-- One externally triggered transition of the server. -/
inductive Event where
  | post (d now : Nat) (body : ReqBody)
  | del (aId : String)
  | patch (aId : String) (lv : JVal)
  | fire (aId : String)
  | cleanup (alive : Int → Bool) (now : Nat)
  | connect (ch : Nat)
  | message (msg : Inbound)

/-- Apply one event (HTTP responses are not part of the trace state). -/
def step (e : Event) (s : ServerState) : ServerState :=
  match e with
  | .post d now body => (postStatus d now body s).2
  | .del aId => (deleteAgent aId s).2
  | .patch aId lv => (patchLabel aId lv s).2
  | .fire aId => timerFire aId s
  | .cleanup alive now => runCleanup alive now s
  | .connect ch => wsConnect ch s
  | .message msg => wsMessage msg s

/-- Run a list of events from a state. -/
def run (events : List Event) (s : ServerState) : ServerState :=
  events.foldl (fun s e => step e s) s

/-- Every connected observer channel's message sequence starts with a
`snapshot` and contains no further snapshot. -/
def clientsOk (cs : List (Nat × List WsMessage)) : Prop :=
  ∀ c ∈ cs, ∃ d rest, c.2 = WsMessage.snapshot d :: rest ∧
    ∀ m ∈ rest, isSnapshot m = false

-- --- Concrete fixtures used to instantiate the theorems ---

/-- A valid report body for agent `a` with status `waiting_for_user`. -/
def wBody : ReqBody :=
  { agentId := .str "a", status := .str "waiting_for_user",
    projectName := .str "p" }

/-- A valid report body for agent `a` with status `running` and pid 7. -/
def rBody : ReqBody :=
  { agentId := .str "a", status := .str "running",
    projectName := .str "p", pid := .num 7 }

/-- A record for agent `b` holding pid 7. -/
def bRec : AgentStatus :=
  { agentId := "b", status := .running, projectName := "q",
    pid := some 7, timestamp := 1 }

/-- A record for agent `a` with status `waiting_for_user` and a label. -/
def aRec : AgentStatus :=
  { agentId := "a", status := .waiting_for_user, projectName := "p",
    cwd := some "/w", pid := some 9, label := some "L", timestamp := 2 }

/-- A state holding `b`'s record, a pending debounce for `b` and one
connected observer. -/
def ghostState : ServerState :=
  { store := [("b", bRec)], pendingWaiting := [("b", 40)],
    log := [], clients := [(0, [.snapshot [bRec]])] }

/-- A state holding `a`'s record with a pending debounce for `a`. -/
def waitingState : ServerState :=
  { store := [("a", aRec)], pendingWaiting := [("a", 3002)],
    log := [], clients := [(0, [.snapshot [aRec]])] }

-- --- Association-list lemmas ---

theorem mapLookup_nil {α : Type} (k : String) :
    mapLookup k ([] : List (String × α)) = none := rfl

theorem mapLookup_cons {α : Type} (k : String) (kv : String × α)
    (m : List (String × α)) :
    mapLookup k (kv :: m) =
      if kv.1 = k then some kv.2 else mapLookup k m := by
  by_cases h : kv.1 = k <;>
    simp [mapLookup, List.find?_cons, h]

theorem mapLookup_mapSet_self {α : Type} (k : String) (v : α)
    (m : List (String × α)) : mapLookup k (mapSet k v m) = some v := by
  induction m with
  | nil => simp [mapSet, mapLookup_cons]
  | cons kv m ih =>
    by_cases h : kv.1 = k
    · simp [mapSet, h, mapLookup_cons]
    · simp [mapSet, h, mapLookup_cons, ih]

theorem mapLookup_mapSet_ne {α : Type} {k k' : String} (v : α)
    (m : List (String × α)) (h : k' ≠ k) :
    mapLookup k' (mapSet k v m) = mapLookup k' m := by
  induction m with
  | nil => simp [mapSet, mapLookup_cons, Ne.symm h, mapLookup_nil]
  | cons kv m ih =>
    by_cases hk : kv.1 = k
    · simp [mapSet, hk, mapLookup_cons, Ne.symm h]
    · simp [mapSet, hk, mapLookup_cons, ih]

theorem mapDelete_nil {α : Type} (k : String) :
    mapDelete k ([] : List (String × α)) = [] := rfl

theorem mapDelete_cons {α : Type} (k : String) (kv : String × α)
    (m : List (String × α)) :
    mapDelete k (kv :: m) =
      if kv.1 = k then mapDelete k m else kv :: mapDelete k m := by
  by_cases h : kv.1 = k <;> simp [mapDelete, List.filter_cons, h]

theorem mapLookup_mapDelete_self {α : Type} (k : String)
    (m : List (String × α)) : mapLookup k (mapDelete k m) = none := by
  induction m with
  | nil => rfl
  | cons kv m ih =>
    rw [mapDelete_cons]
    by_cases h : kv.1 = k
    · simpa [h] using ih
    · simpa [h, mapLookup_cons] using ih

theorem mapLookup_mapDelete_ne {α : Type} {k k' : String}
    (m : List (String × α)) (h : k' ≠ k) :
    mapLookup k' (mapDelete k m) = mapLookup k' m := by
  induction m with
  | nil => rfl
  | cons kv m ih =>
    rw [mapDelete_cons]
    by_cases hk : kv.1 = k
    · have hne : kv.1 ≠ k' := by rw [hk]; exact Ne.symm h
      rw [if_pos hk, ih, mapLookup_cons, if_neg hne]
    · rw [if_neg hk, mapLookup_cons, mapLookup_cons, ih]

theorem mapLookup_eq_some_mem {α : Type} {k : String} {v : α}
    {m : List (String × α)} (h : mapLookup k m = some v) : (k, v) ∈ m := by
  induction m with
  | nil => simp [mapLookup] at h
  | cons kv m ih =>
    rw [mapLookup_cons] at h
    by_cases hk : kv.1 = k
    · rw [if_pos hk] at h
      obtain ⟨a, b⟩ := kv
      injection h with h
      subst h
      subst hk
      exact List.mem_cons_self _ _
    · rw [if_neg hk] at h
      exact List.mem_cons_of_mem _ (ih h)


-- --- Eviction-loop (sweep) characterization ---

theorem foldl_sweepStep_log (cond : String × AgentStatus → Bool)
    (l : List (String × AgentStatus)) :
    ∀ st : ServerState,
      (l.foldl (sweepStep cond) st).log =
        st.log ++ (l.filter cond).map (fun kv => WsMessage.agent_removed kv.1) := by
  induction l with
  | nil => intro st; simp
  | cons kv l ih =>
    intro st
    rw [List.foldl_cons, ih]
    by_cases h : cond kv
    · simp [sweepStep, h, broadcast, List.filter_cons]
    · simp [sweepStep, h, List.filter_cons]

theorem foldl_sweepStep_clients (cond : String × AgentStatus → Bool)
    (l : List (String × AgentStatus)) :
    ∀ st : ServerState,
      (l.foldl (sweepStep cond) st).clients =
        st.clients.map (fun c =>
          (c.1, c.2 ++ (l.filter cond).map (fun kv => WsMessage.agent_removed kv.1))) := by
  induction l with
  | nil =>
    intro st
    simp
  | cons kv l ih =>
    intro st
    rw [List.foldl_cons, ih]
    by_cases h : cond kv
    · simp only [sweepStep, h, if_pos, broadcast, List.filter_cons, List.map_map]
      apply List.map_congr_left
      intro c _
      simp [h]
    · simp [sweepStep, h, List.filter_cons]

theorem foldl_sweepStep_store_lookup (cond : String × AgentStatus → Bool)
    (l : List (String × AgentStatus)) (k : String) :
    ∀ st : ServerState,
      mapLookup k (l.foldl (sweepStep cond) st).store =
        if (l.filter cond).any (fun kv => kv.1 == k) then none
        else mapLookup k st.store := by
  induction l with
  | nil => intro st; simp
  | cons kv l ih =>
    intro st
    rw [List.foldl_cons, ih, List.filter_cons]
    by_cases h : cond kv
    · rw [if_pos h, List.any_cons]
      by_cases hk : kv.1 = k
      · subst hk
        simp [sweepStep, h, broadcast, mapLookup_mapDelete_self]
      · have hbk : (kv.1 == k) = false := beq_eq_false_iff_ne.mpr hk
        rw [hbk, Bool.false_or]
        simp [sweepStep, h, broadcast, mapLookup_mapDelete_ne _ (Ne.symm hk)]
    · rw [if_neg h]
      simp [sweepStep, h]

theorem foldl_sweepStep_pending_lookup (cond : String × AgentStatus → Bool)
    (l : List (String × AgentStatus)) (k : String) :
    ∀ st : ServerState,
      mapLookup k (l.foldl (sweepStep cond) st).pendingWaiting =
        if (l.filter cond).any (fun kv => kv.1 == k) then none
        else mapLookup k st.pendingWaiting := by
  induction l with
  | nil => intro st; simp
  | cons kv l ih =>
    intro st
    rw [List.foldl_cons, ih, List.filter_cons]
    by_cases h : cond kv
    · rw [if_pos h, List.any_cons]
      by_cases hk : kv.1 = k
      · subst hk
        simp [sweepStep, h, broadcast, mapLookup_mapDelete_self]
      · have hbk : (kv.1 == k) = false := beq_eq_false_iff_ne.mpr hk
        rw [hbk, Bool.false_or]
        simp [sweepStep, h, broadcast, mapLookup_mapDelete_ne _ (Ne.symm hk)]
    · rw [if_neg h]
      simp [sweepStep, h]

theorem sweep_log (cond : String × AgentStatus → Bool) (s : ServerState) :
    (sweep cond s).log =
      s.log ++ (s.store.filter cond).map (fun kv => WsMessage.agent_removed kv.1) :=
  foldl_sweepStep_log cond s.store s

theorem sweep_clients (cond : String × AgentStatus → Bool) (s : ServerState) :
    (sweep cond s).clients =
      s.clients.map (fun c =>
        (c.1, c.2 ++ (s.store.filter cond).map (fun kv => WsMessage.agent_removed kv.1))) :=
  foldl_sweepStep_clients cond s.store s

theorem sweep_store_lookup (cond : String × AgentStatus → Bool)
    (s : ServerState) (k : String) :
    mapLookup k (sweep cond s).store =
      if (s.store.filter cond).any (fun kv => kv.1 == k) then none
      else mapLookup k s.store :=
  foldl_sweepStep_store_lookup cond s.store k s

theorem sweep_pending_lookup (cond : String × AgentStatus → Bool)
    (s : ServerState) (k : String) :
    mapLookup k (sweep cond s).pendingWaiting =
      if (s.store.filter cond).any (fun kv => kv.1 == k) then none
      else mapLookup k s.pendingWaiting :=
  foldl_sweepStep_pending_lookup cond s.store k s

-- --- POST handler characterization on valid input ---

theorem postStatus_valid {body : ReqBody} {aId pn : String} {st : Status}
    (d now : Nat) (s : ServerState)
    (ha : validStr body.agentId = some aId)
    (hs : parseStatus body.status = some st)
    (hp : validStr body.projectName = some pn) :
    postStatus d now body s =
      (let entry := buildEntry now aId st pn body (mapLookup aId s.store)
       let s1 := if truthyNum entry.pid then
           sweep (evictCond aId entry.pid) s
         else s
       let s2 := { s1 with store := mapSet aId entry s1.store }
       if st = Status.waiting_for_user then
         (ApiResponse.ok,
          { s2 with pendingWaiting := mapSet aId (now + d) s2.pendingWaiting })
       else
         (ApiResponse.ok,
          broadcast (WsMessage.status_update entry)
            { s2 with pendingWaiting := mapDelete aId s2.pendingWaiting })) := by
  simp only [postStatus, ha, hs, hp]

-- --- Claims ---

/-- C3: a POST status report whose `agentId` is missing, empty or not a
string, or whose `status` is not one of the four enum values, or whose
`projectName` is missing, empty or not a string, is rejected with 400
naming the first invalid field and leaves the whole state (registry and
debounce-timer map included) unmodified; a report passing validation is
answered 200 `{ok:true}`. -/
theorem postStatus_validation_first_field (d now : Nat) (body : ReqBody)
    (s : ServerState) :
    (validStr body.agentId = none →
      postStatus d now body s =
        (.badRequest "Missing or invalid field: agentId", s)) ∧
    (∀ aId, validStr body.agentId = some aId →
      parseStatus body.status = none →
      postStatus d now body s =
        (.badRequest "Missing or invalid field: status", s)) ∧
    (∀ aId st, validStr body.agentId = some aId →
      parseStatus body.status = some st →
      validStr body.projectName = none →
      postStatus d now body s =
        (.badRequest "Missing or invalid field: projectName", s)) ∧
    (∀ aId st pn, validStr body.agentId = some aId →
      parseStatus body.status = some st →
      validStr body.projectName = some pn →
      (postStatus d now body s).1 = .ok) := by
  refine ⟨fun ha => ?_, fun aId ha hs => ?_, fun aId st ha hs hp => ?_,
    fun aId st pn ha hs hp => ?_⟩
  · simp only [postStatus, ha]
  · simp only [postStatus, ha, hs]
  · simp only [postStatus, ha, hs, hp]
  · rw [postStatus_valid d now s ha hs hp]
    dsimp only
    split <;> rfl

/-- C3 witness: a body whose `agentId` is a number is rejected naming
`agentId` with the state untouched, and a valid body is answered ok. -/
theorem postStatus_validation_first_field_witness :
    postStatus 3000 5 { agentId := JVal.num 4 } ghostState =
      (.badRequest "Missing or invalid field: agentId", ghostState) ∧
    (postStatus 3000 5 rBody ghostState).1 = .ok :=
  ⟨(postStatus_validation_first_field 3000 5 { agentId := JVal.num 4 }
      ghostState).1 rfl,
   (postStatus_validation_first_field 3000 5 rBody
      ghostState).2.2.2 "a" .running "p" rfl rfl rfl⟩

/-- C1: an accepted status report whose candidate entry carries a truthy
(non-empty) pid evicts every other record holding the same pid: each such
record is gone from the registry, its pending debounce entry is cancelled,
and an `agent_removed` for it is announced; in the announcement log all
these removals precede the candidate's own `status_update` (when one is
sent at all), and after the upsert the candidate is stored under its id. -/
theorem postStatus_pid_eviction (d now : Nat) (body : ReqBody)
    (s : ServerState) {aId pn : String} {st : Status}
    {entry : AgentStatus} {s' : ServerState}
    (ha : validStr body.agentId = some aId)
    (hst : parseStatus body.status = some st)
    (hp : validStr body.projectName = some pn)
    (hentry : entry = buildEntry now aId st pn body (mapLookup aId s.store))
    (hpid : truthyNum entry.pid = true)
    (hs' : s' = (postStatus d now body s).2) :
    (postStatus d now body s).1 = .ok ∧
    mapLookup aId s'.store = some entry ∧
    s'.log = s.log
      ++ (s.store.filter (evictCond aId entry.pid)).map
           (fun kv => WsMessage.agent_removed kv.1)
      ++ (if st = Status.waiting_for_user then []
          else [WsMessage.status_update entry]) ∧
    ∀ kv ∈ s.store, kv.1 ≠ aId → kv.2.pid = entry.pid →
      mapLookup kv.1 s'.store = none ∧
      mapLookup kv.1 s'.pendingWaiting = none ∧
      WsMessage.agent_removed kv.1 ∈
        (s.store.filter (evictCond aId entry.pid)).map
          (fun kv => WsMessage.agent_removed kv.1) := by
  rw [postStatus_valid d now s ha hst hp] at hs' ⊢
  dsimp only at hs' ⊢
  rw [← hentry] at hs' ⊢
  rw [if_pos hpid] at hs' ⊢
  have hvictim : ∀ kv ∈ s.store, kv.1 ≠ aId → kv.2.pid = entry.pid →
      ((s.store.filter (evictCond aId entry.pid)).any
        (fun kv' => kv'.1 == kv.1)) = true := by
    intro kv hmem hne hpe
    rw [List.any_eq_true]
    refine ⟨kv, List.mem_filter.mpr ⟨hmem, ?_⟩, by simp⟩
    simp [evictCond, hne, hpe]
  by_cases hw : st = Status.waiting_for_user
  · rw [if_pos hw] at hs' ⊢
    refine ⟨rfl, ?_, ?_, ?_⟩
    · rw [hs']
      exact mapLookup_mapSet_self _ _ _
    · rw [hs', if_pos hw]
      simpa using sweep_log (evictCond aId entry.pid) s
    · intro kv hmem hne hpe
      refine ⟨?_, ?_, ?_⟩
      · rw [hs']
        rw [mapLookup_mapSet_ne _ _ hne, sweep_store_lookup,
          if_pos (hvictim kv hmem hne hpe)]
      · rw [hs']
        rw [mapLookup_mapSet_ne _ _ hne, sweep_pending_lookup,
          if_pos (hvictim kv hmem hne hpe)]
      · rw [List.mem_map]
        exact ⟨kv, List.mem_filter.mpr ⟨hmem, by simp [evictCond, hne, hpe]⟩,
          rfl⟩
  · rw [if_neg hw] at hs' ⊢
    refine ⟨rfl, ?_, ?_, ?_⟩
    · rw [hs']
      show mapLookup aId (mapSet aId entry _) = some entry
      exact mapLookup_mapSet_self _ _ _
    · rw [hs', if_neg hw]
      show (sweep (evictCond aId entry.pid) s).log
          ++ [WsMessage.status_update entry] = _
      rw [sweep_log]
    · intro kv hmem hne hpe
      refine ⟨?_, ?_, ?_⟩
      · rw [hs']
        show mapLookup kv.1 (mapSet aId entry
          (sweep (evictCond aId entry.pid) s).store) = none
        rw [mapLookup_mapSet_ne _ _ hne, sweep_store_lookup,
          if_pos (hvictim kv hmem hne hpe)]
      · rw [hs']
        show mapLookup kv.1 (mapDelete aId
          (sweep (evictCond aId entry.pid) s).pendingWaiting) = none
        rw [mapLookup_mapDelete_ne _ hne, sweep_pending_lookup,
          if_pos (hvictim kv hmem hne hpe)]
      · rw [List.mem_map]
        exact ⟨kv, List.mem_filter.mpr ⟨hmem, by simp [evictCond, hne, hpe]⟩,
          rfl⟩

/-- C1 witness: agent `a` reports with pid 7 while `b` holds pid 7; `b`
is evicted from the registry and its pending debounce is cancelled. -/
theorem postStatus_pid_eviction_witness :
    mapLookup "b" ((postStatus 3000 5 rBody ghostState).2).store = none ∧
    mapLookup "b" ((postStatus 3000 5 rBody ghostState).2).pendingWaiting
      = none := by
  have h := @postStatus_pid_eviction 3000 5 rBody ghostState "a" "p"
      Status.running
      (buildEntry 5 "a" Status.running "p" rBody
        (mapLookup "a" ghostState.store))
      ((postStatus 3000 5 rBody ghostState).2)
      (by decide) (by decide) (by decide) rfl (by decide) rfl
  have hb := h.2.2.2 ("b", bRec) (by decide) (by decide) (by decide)
  exact ⟨hb.1, hb.2.1⟩

/-- On a valid report the announcement log grows by the PID-collision
removals followed, for a non-`waiting_for_user` status, by the candidate's
`status_update`. -/
theorem postStatus_ok_log (d now : Nat) (body : ReqBody) (s : ServerState)
    {aId pn : String} {st : Status}
    (ha : validStr body.agentId = some aId)
    (hst : parseStatus body.status = some st)
    (hp : validStr body.projectName = some pn) :
    ((postStatus d now body s).2).log = s.log
      ++ (if truthyNum (optNumField body.pid) then
            (s.store.filter (evictCond aId (optNumField body.pid))).map
              (fun kv => WsMessage.agent_removed kv.1)
          else [])
      ++ (if st = Status.waiting_for_user then []
          else [WsMessage.status_update
                  (buildEntry now aId st pn body (mapLookup aId s.store))]) := by
  rw [postStatus_valid d now s ha hst hp]
  dsimp only
  have hpid : (buildEntry now aId st pn body (mapLookup aId s.store)).pid
      = optNumField body.pid := rfl
  rw [hpid]
  by_cases hb : truthyNum (optNumField body.pid)
  · rw [if_pos hb, if_pos hb]
    by_cases hw : st = Status.waiting_for_user
    · rw [if_pos hw, if_pos hw]
      simpa using sweep_log _ s
    · rw [if_neg hw, if_neg hw]
      show (sweep (evictCond aId (optNumField body.pid)) s).log ++ _ = _
      rw [sweep_log]
  · rw [if_neg hb, if_neg hb]
    by_cases hw : st = Status.waiting_for_user
    · rw [if_pos hw, if_pos hw]
      simp
    · rw [if_neg hw, if_neg hw]
      show s.log ++ _ = _
      simp

/-- On a valid report the reporting agent's pending debounce entry ends
up as: a fresh deadline `now + d` when the new status is
`waiting_for_user`, gone (cancelled) otherwise. -/
theorem postStatus_ok_pending (d now : Nat) (body : ReqBody)
    (s : ServerState) {aId pn : String} {st : Status}
    (ha : validStr body.agentId = some aId)
    (hst : parseStatus body.status = some st)
    (hp : validStr body.projectName = some pn) :
    mapLookup aId ((postStatus d now body s).2).pendingWaiting =
      (if st = Status.waiting_for_user then some (now + d) else none) := by
  rw [postStatus_valid d now s ha hst hp]
  dsimp only
  by_cases hw : st = Status.waiting_for_user
  · rw [if_pos hw, if_pos hw]
    by_cases hb : truthyNum (buildEntry now aId st pn body
        (mapLookup aId s.store)).pid
    · rw [if_pos hb]
      exact mapLookup_mapSet_self _ _ _
    · rw [if_neg hb]
      exact mapLookup_mapSet_self _ _ _
  · rw [if_neg hw, if_neg hw]
    by_cases hb : truthyNum (buildEntry now aId st pn body
        (mapLookup aId s.store)).pid
    · rw [if_pos hb]
      exact mapLookup_mapDelete_self _ _
    · rw [if_neg hb]
      exact mapLookup_mapDelete_self _ _

/-- `agent_removed` messages never pass the `status_update` filter. -/
theorem filter_isStatusUpdate_removed (l : List (String × AgentStatus)) :
    ((l.map fun kv => WsMessage.agent_removed kv.1).filter isStatusUpdate)
      = [] := by
  induction l with
  | nil => rfl
  | cons kv l ih => simpa [isStatusUpdate] using ih

/-- C2: a `waiting_for_user` upsert announces no `status_update` and
(re)starts the agent's debounce entry with deadline `now + d`; the timer
callback re-reads the registry and announces only a still-waiting record;
any later accepted report for the agent replaces or cancels the pending
entry (a waiting report restarts the deadline, any other status cancels);
consequently posting `waiting_for_user` and then `running` before the
timer fires broadcasts exactly one `status_update`, carrying `running`,
and never a `waiting_for_user` one, and leaves no pending timer. -/
theorem waiting_debounce_policy (d n1 n2 : Nat) (b1 b2 : ReqBody)
    (s : ServerState) {aId pn1 pn2 : String} {s1 s2 : ServerState}
    {entry2 : AgentStatus}
    (ha1 : validStr b1.agentId = some aId)
    (hw1 : parseStatus b1.status = some Status.waiting_for_user)
    (hp1 : validStr b1.projectName = some pn1)
    (ha2 : validStr b2.agentId = some aId)
    (hr2 : parseStatus b2.status = some Status.running)
    (hp2 : validStr b2.projectName = some pn2)
    (hS1 : s1 = (postStatus d n1 b1 s).2)
    (hS2 : s2 = (postStatus d n2 b2 s1).2)
    (hE2 : entry2 = buildEntry n2 aId Status.running pn2 b2
        (mapLookup aId s1.store)) :
    (s1.log.drop s.log.length).filter isStatusUpdate = [] ∧
    mapLookup aId s1.pendingWaiting = some (n1 + d) ∧
    (∀ t : ServerState, (timerFire aId t).log = t.log ++
      (match mapLookup aId t.store with
       | some c => if c.status = Status.waiting_for_user
           then [WsMessage.status_update c] else []
       | none => [])) ∧
    (∀ (d' n' : Nat) (b' : ReqBody) (st' : Status) (pn' : String)
       (t : ServerState),
      validStr b'.agentId = some aId → parseStatus b'.status = some st' →
      validStr b'.projectName = some pn' →
      mapLookup aId ((postStatus d' n' b' t).2).pendingWaiting =
        (if st' = Status.waiting_for_user then some (n' + d') else none)) ∧
    mapLookup aId s2.pendingWaiting = none ∧
    (s2.log.drop s.log.length).filter isStatusUpdate =
      [WsMessage.status_update entry2] ∧
    entry2.status = Status.running ∧
    (∀ a, WsMessage.status_update a ∈ s2.log.drop s.log.length →
      a.status = Status.running) := by
  have hfR : ∀ (c : Bool) (l : List (String × AgentStatus)),
      ((if c then l.map (fun kv => WsMessage.agent_removed kv.1)
        else []).filter isStatusUpdate) = [] := by
    intro c l
    by_cases hc : c <;> simp [hc, filter_isStatusUpdate_removed]
  have L1 := postStatus_ok_log d n1 b1 s ha1 hw1 hp1
  rw [← hS1] at L1
  rw [if_pos rfl, List.append_nil] at L1
  have L2 := postStatus_ok_log d n2 b2 s1 ha2 hr2 hp2
  rw [← hS2, ← hE2] at L2
  rw [if_neg (by simp : ¬ Status.running = Status.waiting_for_user)] at L2
  have hlog2 : (s2.log.drop s.log.length).filter isStatusUpdate =
      [WsMessage.status_update entry2] := by
    rw [L2, L1]
    rw [List.append_assoc, List.append_assoc, List.drop_left]
    rw [List.filter_append, List.filter_append, hfR, hfR]
    simp [isStatusUpdate]
  refine ⟨?_, ?_, ?_, ?_, ?_, hlog2, ?_, ?_⟩
  · rw [L1, List.drop_left, hfR]
  · have := postStatus_ok_pending d n1 b1 s ha1 hw1 hp1
    rw [← hS1, if_pos rfl] at this
    exact this
  · intro t
    by_cases hmt : (mapLookup aId t.store).isSome
    · obtain ⟨c, hc⟩ := Option.isSome_iff_exists.mp hmt
      by_cases hcw : c.status = Status.waiting_for_user
      · simp [timerFire, hc, hcw, broadcast]
      · simp [timerFire, hc, hcw]
    · rw [Option.not_isSome_iff_eq_none] at hmt
      simp [timerFire, hmt]
  · exact fun d' n' b' st' pn' t ha' hs' hp' =>
      postStatus_ok_pending d' n' b' t ha' hs' hp'
  · have := postStatus_ok_pending d n2 b2 s1 ha2 hr2 hp2
    rw [← hS2] at this
    simpa using this
  · rw [hE2]; rfl
  · intro a hmem
    have hf : WsMessage.status_update a ∈
        (s2.log.drop s.log.length).filter isStatusUpdate :=
      List.mem_filter.mpr ⟨hmem, rfl⟩
    rw [hlog2] at hf
    have : a = entry2 := by simpa using hf
    rw [this, hE2]
    rfl

/-- C2 witness: posting `waiting_for_user` then `running` for agent `a`
from the empty state announces nothing at the first post and leaves no
pending debounce entry after the second. -/
theorem waiting_debounce_policy_witness :
    ((postStatus 3000 10 wBody initState).2.log.drop
        initState.log.length).filter isStatusUpdate = [] ∧
    mapLookup "a" ((postStatus 3000 20 rBody
        (postStatus 3000 10 wBody initState).2).2).pendingWaiting = none := by
  have h := @waiting_debounce_policy 3000 10 20 wBody rBody initState
    "a" "p" "p"
    ((postStatus 3000 10 wBody initState).2)
    ((postStatus 3000 20 rBody (postStatus 3000 10 wBody initState).2).2)
    (buildEntry 20 "a" Status.running "p" rBody
      (mapLookup "a" ((postStatus 3000 10 wBody initState).2).store))
    (by decide) (by decide) (by decide) (by decide) (by decide) (by decide)
    rfl rfl rfl
  exact ⟨h.1, h.2.2.2.2.1⟩

/-- With pairwise-distinct keys, two bindings sharing a key coincide. -/
theorem key_unique {α : Type} {l : List (String × α)}
    (hnd : (l.map Prod.fst).Nodup) {kv kv' : String × α}
    (h1 : kv ∈ l) (h2 : kv' ∈ l) (hk : kv.1 = kv'.1) : kv = kv' := by
  induction l with
  | nil => cases h1
  | cons x l ih =>
    rw [List.map_cons, List.nodup_cons] at hnd
    rcases List.mem_cons.mp h1 with rfl | h1'
    · rcases List.mem_cons.mp h2 with rfl | h2'
      · rfl
      · exact absurd (hk ▸ List.mem_map_of_mem Prod.fst h2') hnd.1
    · rcases List.mem_cons.mp h2 with rfl | h2'
      · exact absurd (hk ▸ List.mem_map_of_mem Prod.fst h1') hnd.1
      · exact ih hnd.2 h1' h2'

/-- With pairwise-distinct keys, lookup finds exactly the binding that is
a member of the list. -/
theorem mapLookup_of_mem_nodup {α : Type} {l : List (String × α)}
    (hnd : (l.map Prod.fst).Nodup) {kv : String × α} (h : kv ∈ l) :
    mapLookup kv.1 l = some kv.2 := by
  induction l with
  | nil => cases h
  | cons x l ih =>
    rw [List.map_cons, List.nodup_cons] at hnd
    rcases List.mem_cons.mp h with rfl | h'
    · rw [mapLookup_cons, if_pos rfl]
    · have hx : x.1 ≠ kv.1 :=
        fun he => hnd.1 (he ▸ List.mem_map_of_mem Prod.fst h')
      rw [mapLookup_cons, if_neg hx]
      exact ih hnd.2 h'

/-- With pairwise-distinct keys, a member binding satisfying `p` is
counted exactly once by the key-and-`p` predicate. -/
theorem countP_key_eq_one {α : Type} {l : List (String × α)}
    (hnd : (l.map Prod.fst).Nodup) {kv : String × α} (h : kv ∈ l)
    (p : String × α → Bool) (hp : p kv = true) :
    l.countP (fun kv' => kv'.1 == kv.1 && p kv') = 1 := by
  induction l with
  | nil => cases h
  | cons x l ih =>
    rw [List.map_cons, List.nodup_cons] at hnd
    rcases List.mem_cons.mp h with rfl | h'
    · rw [List.countP_cons]
      have hz : l.countP (fun kv' => kv'.1 == kv.1 && p kv') = 0 := by
        rw [List.countP_eq_zero]
        intro kv' hkv'
        have hne : kv'.1 ≠ kv.1 :=
          fun he => hnd.1 (he ▸ List.mem_map_of_mem Prod.fst hkv')
        simp [hne]
      rw [hz]
      simp [hp]
    · have hxe : x.1 ≠ kv.1 :=
        fun he => hnd.1 (he ▸ List.mem_map_of_mem Prod.fst h')
      rw [List.countP_cons]
      simp [hxe, ih hnd.2 h']

/-- C4: in a reaper sweep over a registry with distinct agent ids, a
record with a truthy pid is stale exactly when the liveness probe fails
and a record without pid exactly when its age exceeds the 24 h fallback;
every stale record is removed, its pending debounce entry cancelled and
exactly one `agent_removed` announced for it, while non-stale records and
their pending entries are left untouched. -/
theorem runCleanup_stale_eviction (alive : Int → Bool) (now : Nat)
    (s : ServerState) {s' : ServerState}
    (hnd : (s.store.map Prod.fst).Nodup)
    (hs' : s' = runCleanup alive now s) :
    (∀ (e : AgentStatus) (p : Int), e.pid = some p → p ≠ 0 →
      isStale alive now e = !alive p) ∧
    (∀ e : AgentStatus, e.pid = none →
      isStale alive now e = decide (now - e.timestamp > 24 * 60 * 60 * 1000)) ∧
    s'.log = s.log ++
      (s.store.filter (fun kv => isStale alive now kv.2)).map
        (fun kv => WsMessage.agent_removed kv.1) ∧
    ∀ kv ∈ s.store,
      (isStale alive now kv.2 = true →
        mapLookup kv.1 s'.store = none ∧
        mapLookup kv.1 s'.pendingWaiting = none ∧
        (s'.log.drop s.log.length).count (WsMessage.agent_removed kv.1) = 1) ∧
      (isStale alive now kv.2 = false →
        mapLookup kv.1 s'.store = some kv.2 ∧
        mapLookup kv.1 s'.pendingWaiting = mapLookup kv.1 s.pendingWaiting) := by
  have hlog : s'.log = s.log ++
      (s.store.filter (fun kv => isStale alive now kv.2)).map
        (fun kv => WsMessage.agent_removed kv.1) := by
    rw [hs']
    exact sweep_log _ s
  refine ⟨?_, ?_, hlog, ?_⟩
  · intro e p hp hnz
    simp [isStale, hp, truthyNum, hnz]
  · intro e hp
    simp [isStale, hp, truthyNum]
  · intro kv hkv
    constructor
    · intro hst
      have hany : ((s.store.filter (fun kv' => isStale alive now kv'.2)).any
          (fun kv' => kv'.1 == kv.1)) = true := by
        rw [List.any_eq_true]
        exact ⟨kv, List.mem_filter.mpr ⟨hkv, hst⟩, by simp⟩
      refine ⟨?_, ?_, ?_⟩
      · rw [hs', runCleanup, sweep_store_lookup, if_pos hany]
      · rw [hs', runCleanup, sweep_pending_lookup, if_pos hany]
      · rw [hlog, List.drop_left, List.count_eq_countP, List.countP_map,
          List.countP_filter]
        rw [← countP_key_eq_one hnd hkv (fun kv' => isStale alive now kv'.2)
          hst]
        apply List.countP_congr
        intro kv' _
        simp [Function.comp]
    · intro hst
      have hany : ((s.store.filter (fun kv' => isStale alive now kv'.2)).any
          (fun kv' => kv'.1 == kv.1)) = false := by
        rw [List.any_eq_false]
        intro kv' hkv'
        rw [List.mem_filter] at hkv'
        intro hbe
        have hke : kv'.1 = kv.1 := by simpa using hbe
        have : kv' = kv := key_unique hnd hkv'.1 hkv (hke)
        rw [this] at hkv'
        rw [hkv'.2] at hst
        cases hst
      refine ⟨?_, ?_⟩
      · rw [hs', runCleanup, sweep_store_lookup, if_neg (by simp [hany])]
        exact mapLookup_of_mem_nodup hnd hkv
      · rw [hs', runCleanup, sweep_pending_lookup, if_neg (by simp [hany])]

/-- C4 witness: with a probe that reports every pid dead, the sweep over
a registry holding agent `b` (pid 7) removes `b`'s record and cancels its
pending debounce entry. -/
theorem runCleanup_stale_eviction_witness :
    mapLookup "b" (runCleanup (fun _ => false) 100 ghostState).store
      = none ∧
    mapLookup "b" (runCleanup (fun _ => false) 100 ghostState).pendingWaiting
      = none := by
  have h := @runCleanup_stale_eviction (fun _ => false) 100 ghostState
      (runCleanup (fun _ => false) 100 ghostState) (by decide) rfl
  have hb := (h.2.2.2 ("b", bRec) (by decide)).1 (by decide)
  exact ⟨hb.1, hb.2.1⟩

/-- Every transition leaves each already-connected channel's outbox
extended by snapshot-free messages only, and any newly registered channel
starts with exactly one snapshot. -/
theorem step_clients_shape (e : Event) (s : ServerState) :
    ∃ (ms : List WsMessage) (news : List (Nat × List WsMessage)),
      (step e s).clients = s.clients.map (fun c => (c.1, c.2 ++ ms)) ++ news ∧
      (∀ m ∈ ms, isSnapshot m = false) ∧
      (∀ c ∈ news, ∃ d, c.2 = [WsMessage.snapshot d]) := by
  have hid : s.clients.map (fun c => (c.1, c.2 ++ ([] : List WsMessage)))
      ++ [] = s.clients := by simp
  have hone : ∀ m : WsMessage, isSnapshot m = false →
      (step e s).clients = s.clients.map (fun c => (c.1, c.2 ++ [m])) →
      ∃ ms news, (step e s).clients
          = s.clients.map (fun c => (c.1, c.2 ++ ms)) ++ news ∧
        (∀ m' ∈ ms, isSnapshot m' = false) ∧
        (∀ c ∈ news, ∃ d, c.2 = [WsMessage.snapshot d]) := by
    intro m hm hcl
    exact ⟨[m], [], by simpa using hcl, by simpa using hm, by simp⟩
  have hnone : (step e s).clients = s.clients →
      ∃ ms news, (step e s).clients
          = s.clients.map (fun c => (c.1, c.2 ++ ms)) ++ news ∧
        (∀ m' ∈ ms, isSnapshot m' = false) ∧
        (∀ c ∈ news, ∃ d, c.2 = [WsMessage.snapshot d]) := by
    intro hcl
    exact ⟨[], [], by rw [hcl]; exact hid.symm, by simp, by simp⟩
  cases e with
  | post d now body =>
    show ∃ ms news, ((postStatus d now body s).2).clients = _ ∧ _ ∧ _
    cases ha : validStr body.agentId with
    | none => exact hnone (by simp only [step, postStatus, ha])
    | some aId =>
      cases hst : parseStatus body.status with
      | none => exact hnone (by simp only [step, postStatus, ha, hst])
      | some st =>
        cases hp : validStr body.projectName with
        | none => exact hnone (by simp only [step, postStatus, ha, hst, hp])
        | some pn =>
          have hv := postStatus_valid d now s ha hst hp
          set entry := buildEntry now aId st pn body (mapLookup aId s.store)
            with hE
          by_cases hpid : truthyNum entry.pid
          · have hcl1 := sweep_clients (evictCond aId entry.pid) s
            by_cases hw : st = Status.waiting_for_user
            · refine ⟨(s.store.filter (evictCond aId entry.pid)).map
                  (fun kv => WsMessage.agent_removed kv.1), [], ?_, ?_, by simp⟩
              · show ((postStatus d now body s).2).clients = _
                rw [hv]
                dsimp only
                rw [if_pos hpid, if_pos hw]
                dsimp only
                rw [hcl1]
                simp
              · intro m' hm'
                rw [List.mem_map] at hm'
                obtain ⟨kv, -, rfl⟩ := hm'
                rfl
            · refine ⟨(s.store.filter (evictCond aId entry.pid)).map
                  (fun kv => WsMessage.agent_removed kv.1)
                  ++ [WsMessage.status_update entry], [], ?_, ?_, by simp⟩
              · show ((postStatus d now body s).2).clients = _
                rw [hv]
                dsimp only
                rw [if_pos hpid, if_neg hw]
                dsimp only [broadcast]
                rw [hcl1]
                simp only [List.map_map, List.append_nil]
                apply List.map_congr_left
                intro c _
                simp [Function.comp]
              · intro m' hm'
                rcases List.mem_append.mp hm' with hm' | hm'
                · rw [List.mem_map] at hm'
                  obtain ⟨kv, -, rfl⟩ := hm'
                  rfl
                · rw [List.mem_singleton] at hm'
                  rw [hm']
                  rfl
          · by_cases hw : st = Status.waiting_for_user
            · apply hnone
              show ((postStatus d now body s).2).clients = _
              rw [hv]
              dsimp only
              rw [if_neg hpid, if_pos hw]
            · apply hone (WsMessage.status_update entry) rfl
              show ((postStatus d now body s).2).clients = _
              rw [hv]
              dsimp only
              rw [if_neg hpid, if_neg hw]
              dsimp only [broadcast]
  | del aId =>
    by_cases h : (mapLookup aId s.store).isSome
    · exact hone (WsMessage.agent_removed aId) rfl
        (by simp [step, deleteAgent, h, broadcast])
    · exact hnone (by simp [step, deleteAgent, h])
  | patch aId lv =>
    cases hl : mapLookup aId s.store with
    | none => exact hnone (by simp [step, patchLabel, hl])
    | some agent =>
      cases lv with
      | str l =>
        exact hone (WsMessage.status_update
            { agent with label := if l = "" then none else some l }) rfl
          (by simp [step, patchLabel, hl, broadcast])
      | undefined => exact hnone (by simp [step, patchLabel, hl])
      | null => exact hnone (by simp [step, patchLabel, hl])
      | num n => exact hnone (by simp [step, patchLabel, hl])
      | boolean b => exact hnone (by simp [step, patchLabel, hl])
  | fire aId =>
    cases hl : mapLookup aId s.store with
    | none => exact hnone (by simp [step, timerFire, hl])
    | some current =>
      by_cases hw : current.status = Status.waiting_for_user
      · exact hone (WsMessage.status_update current) rfl
          (by simp [step, timerFire, hl, hw, broadcast])
      · exact hnone (by simp [step, timerFire, hl, hw])
  | cleanup alive now =>
    refine ⟨(s.store.filter (fun kv => isStale alive now kv.2)).map
        (fun kv => WsMessage.agent_removed kv.1), [], ?_, ?_, by simp⟩
    · simpa using sweep_clients (fun kv => isStale alive now kv.2) s
    · intro m' hm'
      rw [List.mem_map] at hm'
      obtain ⟨kv, -, rfl⟩ := hm'
      rfl
  | connect ch =>
    by_cases h : s.clients.any (fun c => c.1 == ch)
    · exact hnone (by simp [step, wsConnect, h])
    · refine ⟨[], [(ch, [WsMessage.snapshot (s.store.map (·.2))])],
        ?_, by simp, ?_⟩
      · simp [step, wsConnect, h]
      · intro c hc
        rw [List.mem_singleton] at hc
        exact ⟨s.store.map (·.2), by rw [hc]⟩
  | message msg =>
    cases msg with
    | malformed => exact hnone rfl
    | parsed t a =>
      by_cases ht : t = JVal.str "focus_request"
      · cases a with
        | str id =>
          refine hone (WsMessage.focus_request id
              (match mapLookup id s.store with
               | some ag => if truthyNum ag.pid then ag.pid else none
               | none => none)
              (match mapLookup id s.store with
               | some ag => if truthyStr ag.cwd then ag.cwd else none
               | none => none)) rfl ?_
          simp [step, wsMessage, ht, broadcast]
        | undefined => exact hnone (by simp [step, wsMessage, ht])
        | null => exact hnone (by simp [step, wsMessage, ht])
        | num n => exact hnone (by simp [step, wsMessage, ht])
        | boolean b => exact hnone (by simp [step, wsMessage, ht])
      · exact hnone (by simp [step, wsMessage, ht])

/-- One transition preserves the snapshot-first shape of every channel. -/
theorem clientsOk_step (e : Event) (s : ServerState)
    (h : clientsOk s.clients) : clientsOk (step e s).clients := by
  obtain ⟨ms, news, heq, hms, hnews⟩ := step_clients_shape e s
  rw [heq]
  intro c hc
  rcases List.mem_append.mp hc with hc | hc
  · rw [List.mem_map] at hc
    obtain ⟨c0, hc0, rfl⟩ := hc
    obtain ⟨dd, rest, hr, hrest⟩ := h c0 hc0
    refine ⟨dd, rest ++ ms, ?_, ?_⟩
    · show c0.2 ++ ms = _
      rw [hr]
      simp
    · intro m hm
      rcases List.mem_append.mp hm with hm | hm
      · exact hrest m hm
      · exact hms m hm
  · obtain ⟨dd, hd⟩ := hnews c hc
    exact ⟨dd, [], by rw [hd], by simp⟩

/-- Any event sequence preserves the snapshot-first shape. -/
theorem run_clientsOk (events : List Event) (s : ServerState)
    (h : clientsOk s.clients) : clientsOk (run events s).clients := by
  induction events generalizing s with
  | nil => exact h
  | cons e es ih => exact ih _ (clientsOk_step e s h)

/-- C5: after any sequence of events starting from the initial state,
every connected observer channel's very first message is a `snapshot`,
and no `status_update`, `agent_removed` or `focus_request` (nor any other
snapshot) precedes it on that channel. -/
theorem snapshot_first (events : List Event) (ch : Nat)
    (outbox : List WsMessage)
    (hmem : (ch, outbox) ∈ (run events initState).clients) :
    ∃ d rest, outbox = WsMessage.snapshot d :: rest ∧
      ∀ m ∈ rest, isSnapshot m = false := by
  have h0 : clientsOk initState.clients := by
    intro c hc
    cases hc
  have h := run_clientsOk events initState h0 (ch, outbox) hmem
  simpa using h

/-- C5 witness: after a single connect, channel 0's outbox is exactly the
empty snapshot, which heads its message sequence. -/
theorem snapshot_first_witness :
    ((0, [WsMessage.snapshot []]) ∈
      (run [Event.connect 0] initState).clients) ∧
    ∃ d rest,
      [WsMessage.snapshot ([] : List AgentStatus)]
        = WsMessage.snapshot d :: rest ∧
      ∀ m ∈ rest, isSnapshot m = false :=
  ⟨by decide,
   snapshot_first [Event.connect 0] 0 [WsMessage.snapshot []] (by decide)⟩

/-- On a valid report the candidate entry ends up stored under its id. -/
theorem postStatus_ok_stored (d now : Nat) (body : ReqBody)
    (s : ServerState) {aId pn : String} {st : Status}
    (ha : validStr body.agentId = some aId)
    (hst : parseStatus body.status = some st)
    (hp : validStr body.projectName = some pn) :
    mapLookup aId ((postStatus d now body s).2).store =
      some (buildEntry now aId st pn body (mapLookup aId s.store)) := by
  rw [postStatus_valid d now s ha hst hp]
  dsimp only
  by_cases hw : st = Status.waiting_for_user
  · rw [if_pos hw]
    exact mapLookup_mapSet_self _ _ _
  · rw [if_neg hw]
    dsimp only [broadcast]
    exact mapLookup_mapSet_self _ _ _

/-- The label-patch handler on a known agent: only the label field of the
stored record changes, and the updated record is broadcast at once. -/
theorem patchLabel_known (aId l : String) (s : ServerState)
    {ag : AgentStatus} (h : mapLookup aId s.store = some ag) :
    patchLabel aId (JVal.str l) s =
      (.ok,
       broadcast (WsMessage.status_update (patchedAgent ag l))
         { s with store := mapSet aId (patchedAgent ag l) s.store }) := by
  simp only [patchLabel, h, patchedAgent]

/-- C6: a stored label survives a status report that omits the `label`
field; an explicit empty-string label in a report or a patch clears it;
and a label set through the patch endpoint survives a later status-only
report for the same agent. -/
theorem label_persistence :
    (∀ (d now : Nat) (body : ReqBody) (s : ServerState) (aId pn : String)
       (st : Status) (ex : AgentStatus) (l : String),
      validStr body.agentId = some aId → parseStatus body.status = some st →
      validStr body.projectName = some pn → body.label = JVal.undefined →
      mapLookup aId s.store = some ex → ex.label = some l →
      ∃ e, mapLookup aId ((postStatus d now body s).2).store = some e ∧
        e.label = some l) ∧
    (∀ (d now : Nat) (body : ReqBody) (s : ServerState) (aId pn : String)
       (st : Status),
      validStr body.agentId = some aId → parseStatus body.status = some st →
      validStr body.projectName = some pn → body.label = JVal.str "" →
      ∃ e, mapLookup aId ((postStatus d now body s).2).store = some e ∧
        e.label = none) ∧
    (∀ (aId : String) (s : ServerState) (ag : AgentStatus),
      mapLookup aId s.store = some ag →
      ∃ e, mapLookup aId
          ((patchLabel aId (JVal.str "") s).2).store = some e ∧
        e.label = none) ∧
    (∀ (d now : Nat) (body : ReqBody) (s : ServerState) (aId pn : String)
       (st : Status) (ag : AgentStatus) (l : String), l ≠ "" →
      mapLookup aId s.store = some ag →
      validStr body.agentId = some aId → parseStatus body.status = some st →
      validStr body.projectName = some pn → body.label = JVal.undefined →
      ∃ e, mapLookup aId ((postStatus d now body
          ((patchLabel aId (JVal.str l) s).2)).2).store = some e ∧
        e.label = some l) := by
  refine ⟨?_, ?_, ?_, ?_⟩
  · intro d now body s aId pn st ex l ha hst hp hlu hlook hexl
    refine ⟨_, postStatus_ok_stored d now body s ha hst hp, ?_⟩
    simp [buildEntry, resolveLabel, hlu, hlook, hexl]
  · intro d now body s aId pn st ha hst hp hle
    refine ⟨_, postStatus_ok_stored d now body s ha hst hp, ?_⟩
    simp [buildEntry, resolveLabel, hle]
  · intro aId s ag hlook
    rw [patchLabel_known aId "" s hlook]
    dsimp only [broadcast]
    exact ⟨_, mapLookup_mapSet_self _ _ _, by simp [patchedAgent]⟩
  · intro d now body s aId pn st ag l hl hlook ha hst hp hlu
    rw [patchLabel_known aId l s hlook]
    dsimp only [broadcast]
    refine ⟨_, postStatus_ok_stored d now body _ ha hst hp, ?_⟩
    dsimp only
    rw [mapLookup_mapSet_self]
    simp [buildEntry, resolveLabel, patchedAgent, hlu, hl]

/-- C6 witness: agent `a` (labelled "L") reports without a label and the
label survives; patching its label to the empty string clears it. -/
theorem label_persistence_witness :
    (∃ e, mapLookup "a"
        ((postStatus 3000 50 rBody waitingState).2).store = some e ∧
      e.label = some "L") ∧
    (∃ e, mapLookup "a"
        ((patchLabel "a" (JVal.str "") waitingState).2).store = some e ∧
      e.label = none) :=
  ⟨label_persistence.1 3000 50 rBody waitingState "a" "p" Status.running
      aRec "L" (by decide) (by decide) (by decide) rfl (by decide) rfl,
   label_persistence.2.2.1 "a" waitingState aRec (by decide)⟩

/-- C7: patching the label of a known agent answers ok, stores a record
differing from the old one only in the label (timestamp and every other
field kept), leaves every other record and the debounce map untouched,
and announces the updated record immediately; a patch on an unknown
agent answers 404 and a patch with a non-string label answers 400, both
leaving the state unchanged. -/
theorem patchLabel_frame (aId : String) (s : ServerState) :
    (∀ (ag : AgentStatus) (l : String),
      mapLookup aId s.store = some ag →
      (patchLabel aId (JVal.str l) s).1 = .ok ∧
      mapLookup aId ((patchLabel aId (JVal.str l) s).2).store
        = some (patchedAgent ag l) ∧
      ((patchLabel aId (JVal.str l) s).2).pendingWaiting
        = s.pendingWaiting ∧
      ((patchLabel aId (JVal.str l) s).2).log
        = s.log ++ [WsMessage.status_update (patchedAgent ag l)] ∧
      (∀ k, k ≠ aId →
        mapLookup k ((patchLabel aId (JVal.str l) s).2).store
          = mapLookup k s.store) ∧
      (patchedAgent ag l).label = (if l = "" then none else some l) ∧
      (patchedAgent ag l).timestamp = ag.timestamp ∧
      (patchedAgent ag l).agentId = ag.agentId ∧
      (patchedAgent ag l).status = ag.status ∧
      (patchedAgent ag l).projectName = ag.projectName ∧
      (patchedAgent ag l).client = ag.client ∧
      (patchedAgent ag l).cwd = ag.cwd ∧
      (patchedAgent ag l).pid = ag.pid) ∧
    (mapLookup aId s.store = none →
      ∀ lv, patchLabel aId lv s = (.notFound, s)) ∧
    (∀ ag, mapLookup aId s.store = some ag →
      ∀ lv, (∀ l : String, lv ≠ JVal.str l) →
      patchLabel aId lv s
        = (.badRequest "Missing or invalid field: label", s)) := by
  refine ⟨?_, ?_, ?_⟩
  · intro ag l h
    rw [patchLabel_known aId l s h]
    dsimp only [broadcast]
    exact ⟨rfl, mapLookup_mapSet_self _ _ _, rfl, rfl,
      fun k hk => mapLookup_mapSet_ne _ _ hk,
      rfl, rfl, rfl, rfl, rfl, rfl, rfl, rfl⟩
  · intro h lv
    simp [patchLabel, h]
  · intro ag h lv hnl
    cases lv with
    | str l => exact absurd rfl (hnl l)
    | undefined => simp [patchLabel, h]
    | null => simp [patchLabel, h]
    | num n => simp [patchLabel, h]
    | boolean b => simp [patchLabel, h]

/-- C7 witness: patching agent `a`'s label to "M" stores the relabelled
record, keeps its timestamp and leaves the debounce map untouched;
patching unknown agent `z` answers 404 without touching the state. -/
theorem patchLabel_frame_witness :
    mapLookup "a" ((patchLabel "a" (JVal.str "M") waitingState).2).store
      = some (patchedAgent aRec "M") ∧
    ((patchLabel "a" (JVal.str "M") waitingState).2).pendingWaiting
      = waitingState.pendingWaiting ∧
    (patchedAgent aRec "M").timestamp = aRec.timestamp ∧
    patchLabel "z" (JVal.str "M") waitingState
      = (.notFound, waitingState) := by
  have h := (patchLabel_frame "a" waitingState).1 aRec "M" (by decide)
  have hz := (patchLabel_frame "z" waitingState).2.1 (by decide)
      (JVal.str "M")
  exact ⟨h.2.1, h.2.2.1, h.2.2.2.2.2.2.1, hz⟩

/-- C8 counterexample: the claim delays a `waiting_for_user` record's
appearance in the GET list until the debounce interval elapses, but the
handler stores the record before the debounce branch: posting
`waiting_for_user` to the empty registry and reading back immediately
(no timer has fired) already returns the record. -/
theorem get_status_waiting_immediate_cex :
    getStatus ((postStatus 3000 10 wBody initState).2)
      = [{ agentId := "a", status := Status.waiting_for_user,
           projectName := "p", timestamp := 10 }] ∧
    ((postStatus 3000 10 wBody initState).2).log = [] := by
  constructor <;> rfl

/-- C8 (amended): for every valid report of any status — including
`waiting_for_user` — the GET list read immediately after the response
matches the registry exactly and already contains the new/updated
record; only the `status_update` broadcast is debounced. -/
theorem get_status_immediate (d now : Nat) (body : ReqBody)
    (s : ServerState) {aId pn : String} {st : Status}
    (ha : validStr body.agentId = some aId)
    (hst : parseStatus body.status = some st)
    (hp : validStr body.projectName = some pn) :
    getStatus ((postStatus d now body s).2)
      = ((postStatus d now body s).2).store.map (·.2) ∧
    mapLookup aId ((postStatus d now body s).2).store
      = some (buildEntry now aId st pn body (mapLookup aId s.store)) ∧
    buildEntry now aId st pn body (mapLookup aId s.store)
      ∈ getStatus ((postStatus d now body s).2) := by
  refine ⟨rfl, postStatus_ok_stored d now body s ha hst hp, ?_⟩
  have hm := mapLookup_eq_some_mem (postStatus_ok_stored d now body s
    ha hst hp)
  exact List.mem_map_of_mem (fun kv => kv.2) hm

/-- C8 amended-claim witness: the record posted with `waiting_for_user`
is in the GET list immediately. -/
theorem get_status_immediate_witness :
    buildEntry 10 "a" Status.waiting_for_user "p" wBody
        (mapLookup "a" initState.store)
      ∈ getStatus ((postStatus 3000 10 wBody initState).2) :=
  (get_status_immediate 3000 10 wBody initState (by decide) (by decide)
    (by decide)).2.2

/-- C9: an inbound `focus_request` naming a string agent id is
rebroadcast to every connected observer (the sender included) enriched
with the agent's truthy pid/cwd when the agent is known and with both
omitted when unknown, and a broadcast never touches the registry or the
debounce map; a malformed payload or any other message shape leaves the
state entirely unchanged. -/
theorem focus_request_and_ignore (s : ServerState) :
    (∀ (id : String) (ag : AgentStatus), mapLookup id s.store = some ag →
      wsMessage (.parsed (JVal.str "focus_request") (JVal.str id)) s =
        broadcast (WsMessage.focus_request id
          (if truthyNum ag.pid then ag.pid else none)
          (if truthyStr ag.cwd then ag.cwd else none)) s) ∧
    (∀ id : String, mapLookup id s.store = none →
      wsMessage (.parsed (JVal.str "focus_request") (JVal.str id)) s =
        broadcast (WsMessage.focus_request id none none) s) ∧
    (∀ m : WsMessage, (broadcast m s).store = s.store ∧
      (broadcast m s).pendingWaiting = s.pendingWaiting ∧
      (broadcast m s).clients
        = s.clients.map (fun c => (c.1, c.2 ++ [m]))) ∧
    wsMessage .malformed s = s ∧
    (∀ t a, (t ≠ JVal.str "focus_request" ∨ ∀ id : String, a ≠ JVal.str id) →
      wsMessage (.parsed t a) s = s) := by
  refine ⟨?_, ?_, fun m => ⟨rfl, rfl, rfl⟩, rfl, ?_⟩
  · intro id ag h
    simp [wsMessage, h]
  · intro id h
    simp [wsMessage, h]
  · intro t a hcond
    by_cases ht : t = JVal.str "focus_request"
    · subst ht
      rcases hcond with ht' | ha'
      · exact absurd rfl ht'
      · cases a with
        | str id => exact absurd rfl (ha' id)
        | undefined => simp [wsMessage]
        | null => simp [wsMessage]
        | num n => simp [wsMessage]
        | boolean b => simp [wsMessage]
    · simp [wsMessage, ht]

/-- C9 witness: a focus request for known agent `a` (pid 9, cwd "/w") is
rebroadcast enriched; a message of another type leaves the state as is. -/
theorem focus_request_and_ignore_witness :
    wsMessage (.parsed (JVal.str "focus_request") (JVal.str "a"))
        waitingState
      = broadcast (WsMessage.focus_request "a" (some 9) (some "/w"))
          waitingState ∧
    wsMessage (.parsed (JVal.str "nope") (JVal.str "a")) waitingState
      = waitingState := by
  have h1 := (focus_request_and_ignore waitingState).1 "a" aRec (by decide)
  have h5 := (focus_request_and_ignore waitingState).2.2.2.2
      (JVal.str "nope") (JVal.str "a") (Or.inl (by decide))
  exact ⟨h1.trans (by decide), h5⟩

/-- C10: when an agent's stored status is `waiting_for_user` and a
debounce timer is pending, a successful label patch immediately
broadcasts a `status_update` still carrying `waiting_for_user`, does not
cancel or restart the pending entry, and the timer may then fire and
broadcast a second `status_update` of the same record — observers can
see the debounced status early, and twice. -/
theorem patch_during_debounce (aId lbl : String) (dl : Nat)
    (s : ServerState) {ag : AgentStatus}
    (hlook : mapLookup aId s.store = some ag)
    (hw : ag.status = Status.waiting_for_user)
    (hpend : mapLookup aId s.pendingWaiting = some dl) :
    (patchLabel aId (JVal.str lbl) s).1 = .ok ∧
    (patchedAgent ag lbl).status = Status.waiting_for_user ∧
    ((patchLabel aId (JVal.str lbl) s).2).log
      = s.log ++ [WsMessage.status_update (patchedAgent ag lbl)] ∧
    mapLookup aId ((patchLabel aId (JVal.str lbl) s).2).pendingWaiting
      = some dl ∧
    (timerFire aId ((patchLabel aId (JVal.str lbl) s).2)).log
      = s.log ++ [WsMessage.status_update (patchedAgent ag lbl),
                  WsMessage.status_update (patchedAgent ag lbl)] := by
  have hpa : (patchedAgent ag lbl).status = Status.waiting_for_user := hw
  rw [patchLabel_known aId lbl s hlook]
  dsimp only [broadcast]
  refine ⟨rfl, hpa, rfl, hpend, ?_⟩
  have hcur : mapLookup aId (mapSet aId (patchedAgent ag lbl) s.store)
      = some (patchedAgent ag lbl) := mapLookup_mapSet_self _ _ _
  simp [timerFire, hcur, hpa, broadcast]

/-- C10 witness: patching agent `a` (status `waiting_for_user`, pending
deadline 3002) keeps the pending entry, and a subsequent timer fire
broadcasts the patched record a second time. -/
theorem patch_during_debounce_witness :
    mapLookup "a"
        ((patchLabel "a" (JVal.str "X") waitingState).2).pendingWaiting
      = some 3002 ∧
    (timerFire "a" ((patchLabel "a" (JVal.str "X") waitingState).2)).log
      = waitingState.log
        ++ [WsMessage.status_update (patchedAgent aRec "X"),
            WsMessage.status_update (patchedAgent aRec "X")] := by
  have h := @patch_during_debounce "a" "X" 3002 waitingState aRec
      (by decide) (by decide) (by decide)
  exact ⟨h.2.2.2.1, h.2.2.2.2⟩
